import Mathlib

/-
Verification of the chatgpt-search core (single-file React app, src/index.jsx).
The JavaScript is shallowly embedded: JS numbers used as integer timestamps
and scores become Int, the 32-bit FNV-1a accumulator becomes Nat reduced
mod 2^32 at each step, JS undefined on optional fields becomes Option, a
thrown exception becomes Except.error, and the ES2019 stable Array sort with
a comparator becomes List.mergeSort on the comparator-derived Bool relation
(SortCompare maps a NaN comparator result to +0, which we model by getD 0).
Strings are Lean strings; JS charCodeAt is modelled by Char.toNat, which
agrees with UTF-16 code units on the Basic Multilingual Plane.
-/

namespace ChatGPTSearch

/- Data model: the normalized conversation record produced by mapConversation.
   Fields mirror the object literal in the source: title, messages, time
   (create_time), id (conversation_id), updated (update_time), text. -/

structure Message where
  author : String
  text : Option String
deriving DecidableEq, Repr

structure ConversationRecord where
  title : String
  messages : List Message
  time : Int
  id : String
  updated : Int
  text : String
deriving DecidableEq, Repr

/- Fingerprint Engine: getConversationsSignature and fnv1a. -/

/-- One step of the 32-bit FNV-1a loop: hash is xored with the code unit and
multiplied by the FNV prime via Math.imul, i.e. reduced mod 2^32. -/
def fnv1aStep (hash : Nat) (c : Nat) : Nat :=
  ((hash ^^^ c) * 0x01000193) % 4294967296

/-- The accumulator of fnv1a over the whole string, starting from the 32-bit
FNV offset basis. The final JS shift hash >>> 0 is the identity here because
the accumulator is kept below 2^32 at every step. -/
def fnv1aHash (str : String) : Nat :=
  str.toList.foldl (fun hash c => fnv1aStep hash c.toNat) 0x811c9dc5

/-- JS Number.prototype.toString(16) on an unsigned 32-bit integer: lowercase
hexadecimal digits, no leading-zero padding. -/
def jsNumToHexString (n : Nat) : String :=
  (Nat.toDigits 16 n).asString

/-- The fnv1a helper of the source: hash the string and render the unsigned
result as a compact hex string. -/
def fnv1a (str : String) : String :=
  jsNumToHexString (fnv1aHash str)

/-- The JS default Array.prototype.sort on an array of strings: stable sort
under the lexicographic string order. -/
def jsDefaultSort (l : List String) : List String :=
  l.mergeSort (fun a b => decide (a ≤ b))

/-- The token built for one record inside getConversationsSignature. -/
def conversationToken (c : ConversationRecord) : String :=
  c.id ++ ":" ++ toString c.updated

/-- getConversationsSignature: the sentinel for an empty record set, otherwise
the fnv1a hash of the sorted, pipe-joined id:updated tokens. -/
def getConversationsSignature (conversations : List ConversationRecord) : String :=
  if conversations.isEmpty then "empty"
  else fnv1a (String.intercalate "|" (jsDefaultSort (conversations.map conversationToken)))

/- Record Transformer: processFile (after zip/JSON parsing) with its inner
   helpers mapConversation, mapMessage and sortConversation. -/

structure RawMessageAuthor where
  role : String
deriving DecidableEq, Repr

structure RawMessageContent where
  parts : Option (List String)
deriving DecidableEq, Repr

structure RawMessage where
  author : RawMessageAuthor
  content : RawMessageContent
deriving DecidableEq, Repr

/-- One node of the mapping graph; only the optional message payload is read
by the transformer, structural nodes carry none. -/
structure MappingNode where
  message : Option RawMessage
deriving DecidableEq, Repr

/-- One conversation entry of the raw export. The mapping object is a keyed
table whose iteration order is its insertion order, modelled as an
association list; a missing mapping property is none. -/
structure RawConversation where
  title : String
  mapping : Option (List (String × MappingNode))
  create_time : Int
  update_time : Int
  conversation_id : String
deriving DecidableEq, Repr

/-- Rendering of a JS value that may be undefined inside a template literal:
undefined prints as the literal text undefined. -/
def jsStr : Option String → String
  | some s => s
  | none => "undefined"

/-- mapMessage: project a message payload to author and the space-joined
content parts; absent parts propagate as undefined through the optional
chaining join. -/
def mapMessage (message : RawMessage) : Message :=
  { author := message.author.role,
    text := message.content.parts.map (fun parts => String.intercalate " " parts) }

/-- mapConversation: Object.values over the mapping table, keep nodes with a
message payload, project them, and assemble the record. Accessing
Object.values of a missing mapping throws a TypeError in JS, modelled as
Except.error. -/
def mapConversation (conversation : RawConversation) : Except String ConversationRecord :=
  match conversation.mapping with
  | none => .error "TypeError: Cannot convert undefined or null to object"
  | some mapping =>
    let messages := ((mapping.map Prod.snd).filterMap (fun m => m.message)).map mapMessage
    .ok {
      title := conversation.title,
      messages := messages,
      time := conversation.create_time,
      id := conversation.conversation_id,
      updated := conversation.update_time,
      text := String.intercalate "\n"
        (messages.map (fun m => "[" ++ m.author ++ "] " ++ jsStr m.text)) }

/-- JS subtraction on possibly-undefined numbers: undefined coerces to NaN
and any arithmetic on NaN stays NaN, modelled by none. -/
def jsSub : Option Int → Option Int → Option Int
  | some a, some b => some (a - b)
  | _, _ => none

/-- Property access a.create_time on a mapped ConversationRecord: the record
produced by mapConversation has no create_time property (the raw value was
stored under the name time), so the access yields undefined. -/
def ConversationRecord.create_time (_ : ConversationRecord) : Option Int := none

/-- sortConversation comparator of the source, applied by processFile to the
already-mapped records: a.create_time - b.create_time. -/
def sortConversation (a b : ConversationRecord) : Option Int :=
  jsSub a.create_time b.create_time

/-- ECMA-262 SortCompare on the comparator result: a NaN result is replaced
by +0. -/
def jsSortCompare (cmp : α → α → Option Int) (a b : α) : Int :=
  (cmp a b).getD 0

/-- ES2019 Array.prototype.sort with a comparator: a stable sort that keeps
a before b whenever the comparator does not order b strictly before a. -/
def jsSortBy (cmp : α → α → Option Int) (l : List α) : List α :=
  l.mergeSort (fun a b => decide (jsSortCompare cmp a b ≤ 0))

/-- The record-producing tail of processFile, after conversations.json has
been parsed into a list of entries: map each entry through mapConversation
(a thrown TypeError aborts the whole map) and sort with sortConversation. -/
def processConversations (json : List RawConversation) : Except String (List ConversationRecord) :=
  (json.mapM mapConversation).map (jsSortBy sortConversation)

/- Index Manager, query side: the exact-match (non-fuzzy) branch of
   SearchResults with the relevance ranking sub-mode. -/

/-- JS String.prototype.trim: strip whitespace from both ends. -/
def jsTrim (s : String) : String :=
  String.mk (((s.data.dropWhile Char.isWhitespace).reverse.dropWhile Char.isWhitespace).reverse)

/-- JS String.prototype.toLowerCase, character by character. -/
def toLowerCase (s : String) : String :=
  String.mk (s.data.map Char.toLower)

/-- Substring containment on character lists: the needle occurs at some
position of the haystack; an empty needle is contained everywhere. -/
def includesList : List Char → List Char → Bool
  | _, [] => true
  | [], _ :: _ => false
  | h :: t, n0 :: n => (n0 :: n).isPrefixOf (h :: t) || includesList t (n0 :: n)

/-- JS String.prototype.includes: substring containment. -/
def includesSubstr (haystack needle : String) : Bool :=
  includesList haystack.toList needle.toList

/-- countOccurrences of the source: repeatedly find the needle with indexOf
and resume the scan immediately past the matched substring, so occurrences
are counted without overlap; an empty haystack or needle counts zero. -/
def countOccurrences : List Char → List Char → Nat
  | _, [] => 0
  | [], _ :: _ => 0
  | h :: t, n0 :: n =>
    if (n0 :: n).isPrefixOf (h :: t) then
      1 + countOccurrences ((h :: t).drop (n0 :: n).length) (n0 :: n)
    else
      countOccurrences t (n0 :: n)
termination_by h _ => h.length
decreasing_by
  · simp; omega
  · simp

/-- countOccurrences lifted to strings. -/
def countOccurrencesStr (haystack needle : String) : Nat :=
  countOccurrences haystack.toList needle.toList

/-- getExactMatchScore: 5 times the occurrence count of the query in the
lowercased title plus the occurrence count in the lowercased text; an empty
query scores zero. -/
def getExactMatchScore (conversation : ConversationRecord) (q : String) : Int :=
  if q = "" then 0
  else (countOccurrencesStr (toLowerCase conversation.title) q : Int) * 5
    + (countOccurrencesStr (toLowerCase conversation.text) q : Int)

/-- The exact-match filter of SearchResults: keep the records whose
lowercased text or lowercased title contains the lowercased raw input. -/
def exactMatchFilter (input : String) (conversations : List ConversationRecord) :
    List ConversationRecord :=
  let lowerInput := toLowerCase input
  conversations.filter (fun c =>
    includesSubstr (toLowerCase c.text) lowerInput
      || includesSubstr (toLowerCase c.title) lowerInput)

/-- The relevance comparator of the exact branch: score descending, ties
broken by updated descending; both branches produce real numbers, never
NaN. -/
def exactRelevanceCompare (q : String) (a b : ConversationRecord) : Option Int :=
  let scoreA := getExactMatchScore a q
  let scoreB := getExactMatchScore b q
  if scoreB ≠ scoreA then some (scoreB - scoreA)
  else some (b.updated - a.updated)

/-- The exact-match search pipeline of SearchResults under sortBy relevance:
nothing is shown for blank input, otherwise the filtered records are sorted
by the synthetic relevance comparator built from the trimmed lowercased
query. -/
def searchExactRelevance (input : String) (conversations : List ConversationRecord) :
    List ConversationRecord :=
  if (jsTrim input) = "" then []
  else jsSortBy (exactRelevanceCompare (toLowerCase (jsTrim input)))
    (exactMatchFilter input conversations)

/- Persistent Cache: the Cache Storage blob store scoped by cache name and
   key, with the key normalization of normalizeCacheKey. Response bodies are
   modelled as the text they carry. -/

def STORAGE_SCHEMA_VERSION : Int := 2

def CACHE_NAME : String := "chatgpt-search-cache-v2"

def LEGACY_CACHE_NAMES : List String := ["myCache", "chatgpt-search-cache-v1"]

/-- Characters that encodeURIComponent leaves unescaped. -/
def isUriUnreserved (c : Char) : Bool :=
  c.isAlphanum || c = '-' || c = '_' || c = '.' || c = '!' || c = '~'
    || c = '*' || c = (Char.ofNat 39) || c = '(' || c = ')'

/-- Uppercase hex digit for a nibble. -/
def hexDigitUpper (n : Nat) : Char :=
  if n < 10 then Char.ofNat (48 + n) else Char.ofNat (55 + n)

/-- encodeURIComponent restricted to the code points the cache keys of this
app actually use (below 128): unreserved characters pass through, anything
else becomes a percent-escaped byte. -/
def encodeURIComponent (s : String) : String :=
  String.join (s.toList.map (fun c =>
    if isUriUnreserved c then String.singleton c
    else "%" ++ String.singleton (hexDigitUpper (c.toNat / 16 % 16))
      ++ String.singleton (hexDigitUpper (c.toNat % 16))))

/-- normalizeCacheKey: plain keys and http(s) URLs pass through; a key with a
colon and a custom scheme is rewritten to a same-origin path under the
fixed prefix, percent-encoded. -/
def normalizeCacheKey (key : String) : String :=
  if !(key.contains ':') then key
  else if key.startsWith "http://" || key.startsWith "https://" then key
  else "/_cache/" ++ encodeURIComponent key

/-- One named cache: a map from normalized keys to stored response bodies.
The source never enumerates the keys of a single cache, so a function model
suffices. -/
abbrev CacheMap := String → Option String

/-- The browser storage visible to the migrator: the localStorage schema
marker slot and the named caches of Cache Storage, in creation order. -/
structure BrowserState where
  schemaMarker : Option Int
  caches : List (String × CacheMap)

/-- caches.keys(): the names of the existing caches. -/
def cachesKeys (s : BrowserState) : List String :=
  s.caches.map (fun e => e.1)

/-- caches.open(name): returns the named cache, creating an empty one when
it does not exist yet. -/
def cachesOpen (s : BrowserState) (name : String) : BrowserState :=
  if (s.caches.lookup name).isSome then s
  else { s with caches := s.caches ++ [(name, fun _ => none)] }

/-- caches.delete(name). -/
def cachesDelete (s : BrowserState) (name : String) : BrowserState :=
  { s with caches := s.caches.filter (fun e => e.1 ≠ name) }

/-- cache.match on an already-normalized key. -/
def cacheMatch (s : BrowserState) (name key : String) : Option String :=
  (s.caches.lookup name).bind (fun m => m key)

/-- Insert or overwrite one key of a cache map. -/
def mapInsert (m : CacheMap) (key value : String) : CacheMap :=
  fun k => if k = key then some value else m k

/-- cache.put on an already-normalized key; a put on a nonexistent cache
name is a no-op here because every put in the source goes through a handle
obtained from caches.open. -/
def cachePut (s : BrowserState) (name key value : String) : BrowserState :=
  { s with caches := s.caches.map (fun e =>
      if e.1 = name then (e.1, mapInsert e.2 key value) else e) }

/- Index Manager metadata and Schema Migrator. -/

/-- The persisted MiniSearch metadata record: signature, the storage key of
the index blob, and the creation timestamp (miniSearchOptions also ride
along but only the first two fields are ever compared). -/
structure MiniSearchMeta where
  signature : String
  indexKey : String
  createdAt : Int
deriving DecidableEq, Repr

def MINISEARCH_META_KEY : String := "minisearch:index:meta:v2"

/-- getMiniSearchIndexKey: the index blob key derived from the signature and
the fixed schema tag. -/
def getMiniSearchIndexKey (signature : String) : String :=
  "minisearch:index:" ++ signature ++ ":v2"

/-- copyCacheEntry: copy one key from the legacy cache into the target cache
unless the target already holds it; a missing source entry copies
nothing. -/
def copyCacheEntry (s : BrowserState) (fromName toName key : String) : BrowserState :=
  let request := normalizeCacheKey key
  match cacheMatch s toName request with
  | some _ => s
  | none =>
    match cacheMatch s fromName request with
    | none => s
    | some v => cachePut s toName request v

/-- The MiniSearch part of migrateCacheEntries: when the target cache holds
no metadata record yet, copy the legacy one, parse it (the response.json()
call, whose failure is swallowed to null), and copy the index blob the
parsed metadata points to. -/
def migrateIndexMetaEntry (parseMeta : String → Option MiniSearchMeta)
    (s : BrowserState) (fromName toName : String) : BrowserState :=
  let metaRequest := normalizeCacheKey MINISEARCH_META_KEY
  match cacheMatch s toName metaRequest with
  | some _ => s
  | none =>
    match cacheMatch s fromName metaRequest with
    | none => s
    | some metaText =>
      let s4 := cachePut s toName metaRequest metaText
      match parseMeta metaText with
      | none => s4
      | some meta =>
        if meta.indexKey.length ≠ 0 then copyCacheEntry s4 fromName toName meta.indexKey
        else s4

/-- migrateCacheEntries: copy the json and file entries, then the MiniSearch
metadata record and the index blob it references. -/
def migrateCacheEntries (parseMeta : String → Option MiniSearchMeta)
    (s : BrowserState) (fromName toName : String) : BrowserState :=
  let s1 := cachesOpen s fromName
  let s2 := copyCacheEntry s1 fromName toName "json"
  let s3 := copyCacheEntry s2 fromName toName "file"
  migrateIndexMetaEntry parseMeta s3 fromName toName

/-- migrateLegacyCaches: delete superseded versioned caches, open the current
cache, then migrate and unconditionally delete each explicitly known legacy
cache that existed at the start. -/
def migrateLegacyCaches (parseMeta : String → Option MiniSearchMeta)
    (s : BrowserState) : BrowserState :=
  let cacheNames := cachesKeys s
  let s1 := cacheNames.foldl (fun acc name =>
    if name.startsWith "chatgpt-search-cache-v" && name != CACHE_NAME then
      cachesDelete acc name
    else acc) s
  let s2 := cachesOpen s1 CACHE_NAME
  LEGACY_CACHE_NAMES.foldl (fun acc legacyName =>
    if legacyName ∈ cacheNames then
      cachesDelete (migrateCacheEntries parseMeta acc legacyName CACHE_NAME) legacyName
    else acc) s2

/-- ensureStorageUpToDate: a marker already at the current schema version is
a no-op; otherwise migrate the legacy caches, clean up the legacy
localStorage keys (which include the marker slot itself), and finally write
the current version into the marker slot. -/
def ensureStorageUpToDate (parseMeta : String → Option MiniSearchMeta)
    (s : BrowserState) : BrowserState :=
  if s.schemaMarker = some STORAGE_SCHEMA_VERSION then s
  else
    let s1 := migrateLegacyCaches parseMeta s
    let s2 := { s1 with schemaMarker := none }
    { s2 with schemaMarker := some STORAGE_SCHEMA_VERSION }

/- Index Manager, restore side, and the index effect of App. -/

/-- The index build options passed to MiniSearch. -/
structure MiniSearchOptions where
  fields : List String
  storeFields : List String
deriving DecidableEq, Repr

def miniSearchOptions : MiniSearchOptions :=
  { fields := ["title", "text"], storeFields := ["id", "title", "updated", "time"] }

/-- restoreMiniSearchIndex over the current cache map: refuse blank or
sentinel signatures, read and parse the metadata record, compare its
signature and index key against the expected values, read the index blob as
text and hand it to MiniSearch.loadJSON; every absence, mismatch, parse
failure or load failure collapses to none. The loadJSON argument models the
external MiniSearch.loadJSON capability, with a thrown exception as none. -/
def restoreMiniSearchIndex {Idx : Type}
    (loadJSON : String → MiniSearchOptions → Option Idx)
    (parseMeta : String → Option MiniSearchMeta)
    (cache : CacheMap) (signature : String) (options : MiniSearchOptions) : Option Idx :=
  if signature = "" || signature = "empty" then none
  else
    let expectedIndexKey := getMiniSearchIndexKey signature
    match (cache (normalizeCacheKey MINISEARCH_META_KEY)).bind parseMeta with
    | none => none
    | some meta =>
      if meta.signature = signature ∧ meta.indexKey = expectedIndexKey then
        match cache (normalizeCacheKey expectedIndexKey) with
        | none => none
        | some jsonText => if jsonText = "" then none else loadJSON jsonText options
      else none

/-- What the index effect of App publishes for a record set, sequential-case:
an empty record set clears the index, a restore hit publishes the restored
index, and a restore miss publishes a freshly built index. -/
inductive IndexSource (Idx : Type) where
  | restored (idx : Idx)
  | built (idx : Idx)
deriving DecidableEq, Repr

/-- The decision step of the index effect: restore for the current signature,
falling back to a fresh build of the full record set. -/
def indexEffectStep {Idx : Type}
    (buildIndex : List ConversationRecord → MiniSearchOptions → Idx)
    (loadJSON : String → MiniSearchOptions → Option Idx)
    (parseMeta : String → Option MiniSearchMeta)
    (cache : CacheMap)
    (conversations : List ConversationRecord) : Option (IndexSource Idx) :=
  if conversations.isEmpty then none
  else
    match restoreMiniSearchIndex loadJSON parseMeta cache
        (getConversationsSignature conversations) miniSearchOptions with
    | some idx => some (.restored idx)
    | none => some (.built (buildIndex conversations miniSearchOptions))

/- Concurrency model of the index effect: each change of the conversations
   value starts a new effect generation after running the cleanup of the
   previous one, and the cleanup sets the cancelled flag that the async body
   checks right before every setMiniSearch call. -/

/-- The state of the index effect machinery: the generation of the current
conversations value, the per-generation cancelled flags, and the published
live index tagged with the generation that built it. -/
structure AppIndexState where
  latest : Nat
  cancelled : Nat → Bool
  live : Option (Nat × Nat)

/-- Events of the index effect: a new conversations value supersedes the
current generation (running its cleanup, which sets its cancelled flag),
and a finished build for some generation publishes its result unless that
generation's flag was set. -/
inductive AppEvent where
  | newConversations
  | finishBuild (gen : Nat) (idx : Nat)

/-- One step of the index effect machinery. -/
def appStep (s : AppIndexState) : AppEvent → AppIndexState
  | .newConversations =>
    { latest := s.latest + 1,
      cancelled := fun g => if g = s.latest then true else s.cancelled g,
      live := s.live }
  | .finishBuild gen idx =>
    if s.cancelled gen then s else { s with live := some (gen, idx) }

/-- Run a sequence of events. -/
def appRun (s : AppIndexState) (events : List AppEvent) : AppIndexState :=
  events.foldl appStep s

/- Specification-side definitions, written from the wording of the spec to
   be compared against the code-derived definitions above. -/

/-- Rendering required by the specification wording: the unsigned 32-bit
hash as a fixed-width lowercase hexadecimal string, eight digits with
leading zeros. -/
def toHexFixedWidth8 (n : Nat) : String :=
  let ds := Nat.toDigits 16 n
  (List.replicate (8 - ds.length) '0').asString ++ ds.asString

/-- The Fingerprint Engine as the specification words it, fixed-width
rendering included: sentinel for the empty sequence, otherwise one token per
record, tokens sorted lexicographically, joined with the separator, hashed
with 32-bit FNV-1a, rendered fixed-width. -/
def fingerprintFixedWidthSpec (records : List ConversationRecord) : String :=
  if records.isEmpty then "empty"
  else toHexFixedWidth8 (fnv1aHash (String.intercalate "|"
    (List.insertionSort (fun a b => a ≤ b) (records.map conversationToken))))

/-- The Fingerprint Engine as the specification words it, with the rendering
amended to match the code: lowercase hexadecimal without leading-zero
padding. -/
def fingerprintSpecAmended (records : List ConversationRecord) : String :=
  if records.isEmpty then "empty"
  else jsNumToHexString (fnv1aHash (String.intercalate "|"
    (List.insertionSort (fun a b => a ≤ b) (records.map conversationToken))))

/- Concrete inputs used by witnesses and counterexamples. -/

/-- A record whose token d:28 hashes below 2^28, so its compact hex
rendering has only seven digits. -/
def recordD28 : ConversationRecord :=
  { title := "t", messages := [], time := 1, id := "d", updated := 28, text := "" }

/-- A record whose token a:1 hashes to a full eight-digit rendering. -/
def recordA1 : ConversationRecord :=
  { title := "t", messages := [], time := 1, id := "a", updated := 1, text := "" }

/-- A second record for permutation witnesses. -/
def recordB2 : ConversationRecord :=
  { title := "u", messages := [], time := 2, id := "b", updated := 2, text := "" }

/-- A raw export entry with an empty mapping table, created late. -/
def exportEntryLate : RawConversation :=
  { title := "late", mapping := some [], create_time := 100, update_time := 200,
    conversation_id := "late-id" }

/-- A raw export entry with an empty mapping table, created early. -/
def exportEntryEarly : RawConversation :=
  { title := "early", mapping := some [], create_time := 50, update_time := 300,
    conversation_id := "early-id" }

/-- A raw export entry whose mapping property is missing. -/
def entryWithoutMapping : RawConversation :=
  { title := "no mapping", mapping := none, create_time := 1, update_time := 2,
    conversation_id := "nm-id" }

/-- A message payload whose content carries no parts. -/
def messageWithoutParts : RawMessage :=
  { author := { role := "user" }, content := { parts := none } }

/-- A message payload with two content parts. -/
def messageWithParts : RawMessage :=
  { author := { role := "assistant" }, content := { parts := some ["hello", "world"] } }

/-- A raw export entry holding exactly one message that has no content
parts. -/
def entryOneMessageNoParts : RawConversation :=
  { title := "one message", mapping := some [("node0", { message := some messageWithoutParts })],
    create_time := 10, update_time := 20, conversation_id := "omnp-id" }

/-- A searchable record about a trip, matching the query trip. -/
def recordTrip : ConversationRecord :=
  { title := "Trip", messages := [], time := 100, id := "A", updated := 200,
    text := "[user] plan a trip" }

/-- A searchable record about budgets, not matching the query trip. -/
def recordBudget : ConversationRecord :=
  { title := "Budget", messages := [], time := 50, id := "B", updated := 300,
    text := "[user] plan a budget" }

/-- A record whose title and text are the string aaa, for the occurrence
counting example. -/
def recordAaa : ConversationRecord :=
  { title := "aaa", messages := [], time := 1, id := "aaa-id", updated := 1, text := "aaa" }

/- Theorems. Helper lemmas come first, then one theorem per claim with its
   witness or counterexample. -/

theorem jsDefaultSort_sorted (l : List String) : (jsDefaultSort l).Sorted (· ≤ ·) := by
  have h := @List.sorted_mergeSort String (fun a b => decide (a ≤ b))
    (fun a b c hab hbc => by
      simp only [decide_eq_true_eq] at *
      exact le_trans hab hbc)
    (fun a b => by
      simp only [Bool.or_eq_true, decide_eq_true_eq]
      exact le_total a b) l
  exact h.imp (fun hab => of_decide_eq_true hab)

theorem jsDefaultSort_perm_eq {l₁ l₂ : List String} (h : l₁.Perm l₂) :
    jsDefaultSort l₁ = jsDefaultSort l₂ := by
  haveI : IsAntisymm String (· ≤ ·) := ⟨fun _ _ hab hba => le_antisymm hab hba⟩
  exact List.eq_of_perm_of_sorted
    (((List.mergeSort_perm l₁ _).trans h).trans (List.mergeSort_perm l₂ _).symm)
    (jsDefaultSort_sorted l₁) (jsDefaultSort_sorted l₂)

/-- C1: for every record set and every permutation of it, the Fingerprint
Engine returns the same string: getConversationsSignature depends only on
the multiset of id and updatedAt values, not on the order of the input
sequence. -/
theorem signature_invariant_under_permutation (l₁ l₂ : List ConversationRecord)
    (h : l₁.Perm l₂) : getConversationsSignature l₁ = getConversationsSignature l₂ := by
  have hlen := h.length_eq
  have he : l₁.isEmpty = l₂.isEmpty := by
    cases l₁ <;> cases l₂ <;> simp_all
  unfold getConversationsSignature
  rw [he, jsDefaultSort_perm_eq (h.map conversationToken)]

/-- Witness for C1 at a concrete two-record set and its transposition. -/
theorem signature_invariant_under_permutation_witness :
    ([recordA1, recordB2].Perm [recordB2, recordA1]) ∧
      getConversationsSignature [recordA1, recordB2] =
        getConversationsSignature [recordB2, recordA1] :=
  ⟨List.Perm.swap recordB2 recordA1 [],
    signature_invariant_under_permutation _ _ (List.Perm.swap recordB2 recordA1 [])⟩

theorem jsDefaultSort_eq_insertionSort (l : List String) :
    jsDefaultSort l = List.insertionSort (fun a b => a ≤ b) l := by
  haveI : IsAntisymm String (· ≤ ·) := ⟨fun _ _ hab hba => le_antisymm hab hba⟩
  exact List.eq_of_perm_of_sorted
    ((List.mergeSort_perm l _).trans (List.perm_insertionSort _ l).symm)
    (jsDefaultSort_sorted l)
    (List.sorted_insertionSort _ l)

/-- C3 counterexample: the code renders the hash without leading-zero
padding, so the fingerprint is not fixed-width; the single record with
token d:28 hashes below 2^28 and renders with seven digits where the
fixed-width reading of the spec demands eight. -/
theorem signature_not_fixed_width :
    getConversationsSignature [recordD28] ≠ fingerprintFixedWidthSpec [recordD28] ∧
    (getConversationsSignature [recordD28]).length = 7 ∧
    (getConversationsSignature [recordA1]).length = 8 := by
  refine ⟨?_, ?_, ?_⟩ <;>
    (simp only [getConversationsSignature, fingerprintFixedWidthSpec, jsDefaultSort,
      List.map_cons, List.map_nil, List.mergeSort_singleton, List.isEmpty_cons,
      Bool.false_eq_true, if_false]) <;> decide

/-- C3 amended: the fingerprint of an empty sequence is the sentinel empty;
for a non-empty sequence it is the 32-bit FNV-1a hash of the
separator-joined, lexicographically sorted id:updatedAt tokens, rendered as
the unsigned value in lowercase hexadecimal without leading-zero padding. -/
theorem signature_matches_spec_amended (records : List ConversationRecord) :
    getConversationsSignature records = fingerprintSpecAmended records := by
  unfold getConversationsSignature fingerprintSpecAmended fnv1a
  rw [jsDefaultSort_eq_insertionSort]

theorem jsSortBy_sortConversation_id (l : List ConversationRecord) :
    jsSortBy sortConversation l = l := by
  apply List.mergeSort_of_sorted
  induction l with
  | nil => exact List.Pairwise.nil
  | cons a t ih => exact List.Pairwise.cons (fun b _ => rfl) ih

/-- C2 evidence of a code bug: the comparator sortConversation reads the
create_time property, which the mapped records no longer carry (the value
was stored under the name time), so every comparison coerces to zero and
the stable sort is the identity. One record per entry still holds, but the
output stays in original export order: an export listing create times 100
then 50 comes out as 100 then 50, not sorted ascending by createdAt. -/
theorem transformer_output_keeps_export_order :
    (∀ l : List ConversationRecord, jsSortBy sortConversation l = l) ∧
    (processConversations [exportEntryLate, exportEntryEarly]).map
        (fun records => records.map (fun r => r.time)) = .ok [(100 : Int), 50] ∧
    (processConversations [exportEntryLate, exportEntryEarly]).map
        (fun records => records.length) = .ok 2 := by
  have hfun : jsSortBy sortConversation = fun l => l := funext jsSortBy_sortConversation_id
  refine ⟨jsSortBy_sortConversation_id, ?_, ?_⟩ <;>
    (simp only [processConversations, hfun]; rfl)

/-- C4 is a code bug: mapConversation passes a missing mapping straight to
Object.values, which throws, so an entry without a mapping aborts the whole
transformation instead of producing a record with zero messages. -/
theorem missing_mapping_is_fatal :
    mapConversation entryWithoutMapping =
      .error "TypeError: Cannot convert undefined or null to object" ∧
    processConversations [entryWithoutMapping] =
      .error "TypeError: Cannot convert undefined or null to object" :=
  ⟨rfl, rfl⟩

/-- C5 counterexample: a message payload whose content has no parts is
projected to an undefined text, not to the empty string, and the
surrounding conversation text renders that undefined as the literal word
undefined. -/
theorem absent_parts_text_is_undefined :
    (mapMessage messageWithoutParts).text = none ∧
    (mapMessage messageWithoutParts).text ≠ some "" ∧
    (mapConversation entryOneMessageNoParts).map (fun r => r.text) =
      .ok "[user] undefined" := by
  refine ⟨rfl, by decide, rfl⟩

/-- C5 amended: a message payload whose content has no parts is projected
to a message with no text value at all (JS undefined), never an error; when
parts are present the text is the space-joined list of parts. -/
theorem mapMessage_text_from_parts (message : RawMessage) :
    (message.content.parts = none → (mapMessage message).text = none) ∧
    (∀ parts, message.content.parts = some parts →
      (mapMessage message).text = some (String.intercalate " " parts)) := by
  constructor
  · intro h
    simp [mapMessage, h]
  · intro parts h
    simp [mapMessage, h]

/-- Witness for the amended C5 at concrete messages with and without
parts. -/
theorem mapMessage_text_from_parts_witness :
    (mapMessage messageWithoutParts).text = none ∧
    (mapMessage messageWithParts).text = some "hello world" :=
  ⟨(mapMessage_text_from_parts messageWithoutParts).1 rfl,
    (mapMessage_text_from_parts messageWithParts).2 ["hello", "world"] rfl⟩

/-- C6: the restore step yields an index exactly when the persisted metadata
is present and parseable, its signature equals the freshly computed
signature, its stored index key equals the key derived from that signature,
and the blob at that key is present, non-empty and loadable; and any miss
makes the index effect fall back to a fresh build of the full record set,
never to an error. -/
theorem restore_hit_characterization {Idx : Type}
    (loadJSON : String → MiniSearchOptions → Option Idx)
    (parseMeta : String → Option MiniSearchMeta)
    (buildIndex : List ConversationRecord → MiniSearchOptions → Idx)
    (cache : CacheMap) (signature : String) (options : MiniSearchOptions) (idx : Idx)
    (conversations : List ConversationRecord) :
    (restoreMiniSearchIndex loadJSON parseMeta cache signature options = some idx ↔
      signature ≠ "" ∧ signature ≠ "empty" ∧
      ∃ metaText meta,
        cache (normalizeCacheKey MINISEARCH_META_KEY) = some metaText ∧
        parseMeta metaText = some meta ∧
        meta.signature = signature ∧
        meta.indexKey = getMiniSearchIndexKey signature ∧
        ∃ blob,
          cache (normalizeCacheKey (getMiniSearchIndexKey signature)) = some blob ∧
          blob ≠ "" ∧ loadJSON blob options = some idx) ∧
    (restoreMiniSearchIndex loadJSON parseMeta cache
        (getConversationsSignature conversations) miniSearchOptions = none →
      conversations ≠ [] →
      indexEffectStep buildIndex loadJSON parseMeta cache conversations =
        some (.built (buildIndex conversations miniSearchOptions))) := by
  constructor
  · constructor
    · intro h
      simp only [restoreMiniSearchIndex] at h
      by_cases hb1 : signature = ""
      · simp [hb1] at h
      by_cases hb2 : signature = "empty"
      · simp [hb1, hb2] at h
      rw [if_neg (by simp [hb1, hb2])] at h
      refine ⟨hb1, hb2, ?_⟩
      rcases hmt : cache (normalizeCacheKey MINISEARCH_META_KEY) with _ | metaText
      · rw [hmt] at h
        simp at h
      rw [hmt] at h
      simp only [Option.some_bind] at h
      rcases hpm : parseMeta metaText with _ | meta
      · rw [hpm] at h
        simp at h
      rw [hpm] at h
      by_cases hc : meta.signature = signature ∧ meta.indexKey = getMiniSearchIndexKey signature
      · obtain ⟨hsig, hkey⟩ := hc
        simp only [hsig, hkey, and_self, if_true] at h
        rcases hbk : cache (normalizeCacheKey (getMiniSearchIndexKey signature)) with _ | blob
        · rw [hbk] at h
          simp at h
        rw [hbk] at h
        by_cases hblank : blob = ""
        · simp [hblank] at h
        simp only [hblank, if_false] at h
        exact ⟨metaText, meta, rfl, hpm, hsig, hkey, blob, rfl, hblank, h⟩
      · simp [hc] at h
    · rintro ⟨h1, h2, metaText, meta, hmt, hpm, hsig, hkey, blob, hb, hblank, hload⟩
      simp [restoreMiniSearchIndex, hmt, hpm, hsig, hkey, hb, hblank, h1, h2, hload]
  · intro hmiss hne
    simp only [indexEffectStep]
    rw [if_neg (by simp [hne])]
    rw [hmiss]

/-- Witness for C6: with an empty cache every restore misses and the index
effect publishes a freshly built index. -/
theorem restore_hit_characterization_witness :
    restoreMiniSearchIndex (fun (_ : String) (_ : MiniSearchOptions) => (none : Option Nat))
        (fun _ => none) (fun _ => none) (getConversationsSignature [recordA1])
        miniSearchOptions = none ∧
    ([recordA1] ≠ ([] : List ConversationRecord)) ∧
    indexEffectStep (fun _ _ => (7 : Nat)) (fun _ _ => none) (fun _ => none) (fun _ => none)
        [recordA1] = some (.built 7) :=
  ⟨by unfold restoreMiniSearchIndex; split <;> rfl,
    by simp,
    (restore_hit_characterization (fun _ _ => none) (fun _ => none) (fun _ _ => (7 : Nat))
        (fun _ => none) "sig" miniSearchOptions 0 [recordA1]).2
      (by unfold restoreMiniSearchIndex; split <;> rfl) (by simp)⟩

theorem exactRelevanceCompare_le_iff (q : String) (a b : ConversationRecord) :
    ((exactRelevanceCompare q a b).getD 0 ≤ 0) ↔
      (getExactMatchScore b q < getExactMatchScore a q ∨
        (getExactMatchScore b q = getExactMatchScore a q ∧ b.updated ≤ a.updated)) := by
  simp only [exactRelevanceCompare]
  split
  · rename_i hne
    simp only [Option.getD_some]
    omega
  · rename_i hne
    push_neg at hne
    simp only [Option.getD_some]
    omega

theorem exactRelevance_le_trans (q : String) :
    ∀ a b c : ConversationRecord,
      decide (jsSortCompare (exactRelevanceCompare q) a b ≤ 0) = true →
      decide (jsSortCompare (exactRelevanceCompare q) b c ≤ 0) = true →
      decide (jsSortCompare (exactRelevanceCompare q) a c ≤ 0) = true := by
  intro a b c hab hbc
  rw [decide_eq_true_eq, jsSortCompare, exactRelevanceCompare_le_iff] at *
  omega

theorem exactRelevance_le_total (q : String) :
    ∀ a b : ConversationRecord,
      (decide (jsSortCompare (exactRelevanceCompare q) a b ≤ 0)
        || decide (jsSortCompare (exactRelevanceCompare q) b a ≤ 0)) = true := by
  intro a b
  rw [Bool.or_eq_true, decide_eq_true_eq, decide_eq_true_eq, jsSortCompare, jsSortCompare,
    exactRelevanceCompare_le_iff, exactRelevanceCompare_le_iff]
  omega

/-- C7: for a non-blank query in exact mode, the shown results are exactly
the records whose lowercased title or lowercased text contains the
lowercased query, and under the relevance sub-mode consecutive results are
ordered by the synthetic score (five times the title occurrence count plus
the text occurrence count) descending, ties broken by updatedAt
descending. -/
theorem exact_relevance_search_results (input : String)
    (conversations : List ConversationRecord) (h : (jsTrim input) ≠ "") :
    (∀ c, c ∈ searchExactRelevance input conversations ↔
      c ∈ conversations ∧
        (includesSubstr (toLowerCase c.text) (toLowerCase input)
          || includesSubstr (toLowerCase c.title) (toLowerCase input)) = true) ∧
    (searchExactRelevance input conversations).Pairwise (fun a b =>
      getExactMatchScore b (toLowerCase (jsTrim input)) < getExactMatchScore a (toLowerCase (jsTrim input))
        ∨ (getExactMatchScore b (toLowerCase (jsTrim input))
              = getExactMatchScore a (toLowerCase (jsTrim input))
            ∧ b.updated ≤ a.updated)) := by
  constructor
  · intro c
    simp only [searchExactRelevance, if_neg h, jsSortBy, List.mem_mergeSort,
      exactMatchFilter, List.mem_filter]
  · simp only [searchExactRelevance, if_neg h, jsSortBy]
    have hs := @List.sorted_mergeSort ConversationRecord
      (fun a b => decide (jsSortCompare (exactRelevanceCompare (toLowerCase (jsTrim input))) a b ≤ 0))
      (exactRelevance_le_trans (toLowerCase (jsTrim input)))
      (exactRelevance_le_total (toLowerCase (jsTrim input)))
      (exactMatchFilter input conversations)
    exact hs.imp (fun hab => by
      rw [← exactRelevanceCompare_le_iff, ← jsSortCompare]
      exact of_decide_eq_true hab)

/-- Witness for C7 at the query trip over the two demo records: exactly the
record about the trip is shown and the result list is sorted. -/
theorem exact_relevance_search_results_witness :
    (jsTrim "trip" ≠ "") ∧
    ((∀ c, c ∈ searchExactRelevance "trip" [recordTrip, recordBudget] ↔
      c ∈ [recordTrip, recordBudget] ∧
        (includesSubstr (toLowerCase c.text) (toLowerCase "trip")
          || includesSubstr (toLowerCase c.title) (toLowerCase "trip")) = true) ∧
    (searchExactRelevance "trip" [recordTrip, recordBudget]).Pairwise (fun a b =>
      getExactMatchScore b (toLowerCase (jsTrim "trip"))
          < getExactMatchScore a (toLowerCase (jsTrim "trip"))
        ∨ (getExactMatchScore b (toLowerCase (jsTrim "trip"))
              = getExactMatchScore a (toLowerCase (jsTrim "trip"))
            ∧ b.updated ≤ a.updated))) :=
  ⟨by decide, exact_relevance_search_results "trip" [recordTrip, recordBudget] (by decide)⟩

/-- C10: the occurrence count behind the exact-mode synthetic score counts
non-overlapping occurrences: a match advances the scan past the whole
needle, so the query aa occurs once, not twice, in aaa, and the score of a
record titled aaa with text aaa for the query aa is five plus one. -/
theorem countOccurrences_nonoverlapping :
    (∀ (h : Char) (t : List Char) (n0 : Char) (n : List Char),
      (n0 :: n).isPrefixOf (h :: t) = true →
      countOccurrences (h :: t) (n0 :: n) =
        1 + countOccurrences ((h :: t).drop (n0 :: n).length) (n0 :: n)) ∧
    countOccurrencesStr "aaa" "aa" = 1 ∧
    getExactMatchScore recordAaa "aa" = 6 := by
  have hl : toLowerCase "aaa" = "aaa" := by decide
  refine ⟨?_, by simp [countOccurrencesStr, countOccurrences],
    by simp [getExactMatchScore, recordAaa, hl, countOccurrencesStr, countOccurrences]⟩
  intro h t n0 n hpre
  rw [countOccurrences, if_pos hpre]

/-- Witness for C10 at the concrete haystack aaa and needle aa. -/
theorem countOccurrences_nonoverlapping_witness :
    (['a', 'a'].isPrefixOf ['a', 'a', 'a'] = true) ∧
    countOccurrences ['a', 'a', 'a'] ['a', 'a'] =
      1 + countOccurrences (['a', 'a', 'a'].drop (['a', 'a'].length)) ['a', 'a'] :=
  ⟨by decide, countOccurrences_nonoverlapping.1 'a' ['a', 'a'] 'a' ['a'] (by decide)⟩

theorem lookup_filter_ne {β : Type _} (l : List (String × β)) (n m : String) (h : m ≠ n) :
    (l.filter (fun e => e.1 ≠ n)).lookup m = l.lookup m := by
  induction l with
  | nil => rfl
  | cons e t ih =>
    rw [List.filter_cons]
    by_cases he : e.1 = n
    · have hd : decide (e.1 ≠ n) = false := by simp [he]
      rw [hd, if_neg (by simp)]
      rw [ih, List.lookup_cons]
      have hm : (m == e.1) = false := by simp [he, h]
      rw [hm]
    · have hd : decide (e.1 ≠ n) = true := by simp [he]
      rw [hd, if_pos rfl]
      rw [List.lookup_cons, List.lookup_cons]
      cases hm : (m == e.1) with
      | true => rfl
      | false => exact ih

theorem lookup_append_some {β : Type _} (l l' : List (String × β)) (m : String) (v : β)
    (h : l.lookup m = some v) : (l ++ l').lookup m = some v := by
  induction l with
  | nil => simp at h
  | cons e t ih =>
    rw [List.lookup_cons] at h
    rw [List.cons_append, List.lookup_cons]
    cases hm : (m == e.1) with
    | true =>
      rw [hm] at h
      exact h
    | false =>
      rw [hm] at h
      exact ih h

theorem lookup_map_update {β : Type _} (l : List (String × β)) (n m : String) (g : β → β) :
    (l.map (fun e => if e.1 = n then (e.1, g e.2) else e)).lookup m =
      if m = n then (l.lookup m).map g else l.lookup m := by
  induction l with
  | nil => simp
  | cons e t ih =>
    rw [List.map_cons]
    by_cases he : e.1 = n
    · rw [if_pos he]
      rw [List.lookup_cons, List.lookup_cons]
      cases hm : (m == e.1) with
      | true =>
        have hmn : m = n := (eq_of_beq hm).trans he
        rw [if_pos hmn]
        rfl
      | false =>
        have hmn : m ≠ n := fun hc => (ne_of_beq_false hm) (hc.trans he.symm)
        rw [if_neg hmn, ih, if_neg hmn]
    · rw [if_neg he]
      rw [List.lookup_cons, List.lookup_cons]
      cases hm : (m == e.1) with
      | true =>
        have hmn : m ≠ n := fun hc => he ((eq_of_beq hm).symm.trans hc)
        rw [if_neg hmn]
      | false =>
        rw [ih]

theorem cacheMatch_cachesDelete_other (s : BrowserState) (n m k : String) (h : m ≠ n) :
    cacheMatch (cachesDelete s n) m k = cacheMatch s m k := by
  show ((s.caches.filter (fun e => e.1 ≠ n)).lookup m).bind (fun mp => mp k) = _
  rw [lookup_filter_ne _ _ _ h]
  rfl

theorem cacheMatch_cachesOpen_of_some (s : BrowserState) (n m k : String) (v : String)
    (h : cacheMatch s m k = some v) : cacheMatch (cachesOpen s n) m k = some v := by
  unfold cachesOpen
  split
  · exact h
  · show ((s.caches ++ [(n, fun _ => none)]).lookup m).bind (fun mp => mp k) = some v
    unfold cacheMatch at h
    rcases hl : s.caches.lookup m with _ | mp
    · rw [hl] at h
      cases h
    · rw [hl] at h
      rw [lookup_append_some _ _ _ _ hl]
      exact h

theorem cacheMatch_cachePut_other (s : BrowserState) (n k₀ v₀ m k : String)
    (h : m ≠ n ∨ k ≠ k₀) :
    cacheMatch (cachePut s n k₀ v₀) m k = cacheMatch s m k := by
  show ((s.caches.map (fun e =>
      if e.1 = n then (e.1, mapInsert e.2 k₀ v₀) else e)).lookup m).bind (fun mp => mp k) =
    (s.caches.lookup m).bind (fun mp => mp k)
  rw [lookup_map_update s.caches n m (fun mp => mapInsert mp k₀ v₀)]
  by_cases hm : m = n
  · rw [if_pos hm]
    have hk : k ≠ k₀ := h.resolve_left (fun hmn => hmn hm)
    rcases hl : s.caches.lookup m with _ | mp
    · rfl
    · show mapInsert mp k₀ v₀ k = mp k
      unfold mapInsert
      rw [if_neg hk]
  · rw [if_neg hm]

theorem copyCacheEntry_preserves (s : BrowserState) (fromName key k v : String)
    (h : cacheMatch s CACHE_NAME k = some v) :
    cacheMatch (copyCacheEntry s fromName CACHE_NAME key) CACHE_NAME k = some v := by
  simp only [copyCacheEntry]
  split
  · exact h
  · rename_i ht
    split
    · exact h
    · rename_i w hs
      have hk : k ≠ normalizeCacheKey key := by
        intro e
        rw [e] at h
        rw [h] at ht
        cases ht
      rw [cacheMatch_cachePut_other _ _ _ _ _ _ (Or.inr hk)]
      exact h

theorem migrateIndexMetaEntry_preserves (parseMeta : String → Option MiniSearchMeta)
    (s : BrowserState) (fromName k v : String)
    (h : cacheMatch s CACHE_NAME k = some v) :
    cacheMatch (migrateIndexMetaEntry parseMeta s fromName CACHE_NAME) CACHE_NAME k = some v := by
  simp only [migrateIndexMetaEntry]
  split
  · exact h
  · rename_i hmt
    split
    · exact h
    · rename_i metaText hf
      have hkm : k ≠ normalizeCacheKey MINISEARCH_META_KEY := by
        intro e
        rw [e] at h
        rw [h] at hmt
        cases hmt
      have h4 : cacheMatch
          (cachePut s CACHE_NAME (normalizeCacheKey MINISEARCH_META_KEY) metaText)
          CACHE_NAME k = some v := by
        rw [cacheMatch_cachePut_other _ _ _ _ _ _ (Or.inr hkm)]
        exact h
      split
      · exact h4
      · split
        · exact copyCacheEntry_preserves _ fromName _ k v h4
        · exact h4

theorem migrateCacheEntries_preserves (parseMeta : String → Option MiniSearchMeta)
    (s : BrowserState) (fromName k v : String)
    (h : cacheMatch s CACHE_NAME k = some v) :
    cacheMatch (migrateCacheEntries parseMeta s fromName CACHE_NAME) CACHE_NAME k = some v := by
  simp only [migrateCacheEntries]
  exact migrateIndexMetaEntry_preserves parseMeta _ fromName k v
    (copyCacheEntry_preserves _ fromName "file" k v
      (copyCacheEntry_preserves _ fromName "json" k v
        (cacheMatch_cachesOpen_of_some s fromName CACHE_NAME k v h)))

theorem foldl_preserves {α β : Type _} {P : β → Prop} (f : β → α → β) (l : List α)
    (hf : ∀ b a, a ∈ l → P b → P (f b a)) (b : β) (hb : P b) : P (l.foldl f b) := by
  induction l generalizing b with
  | nil => exact hb
  | cons x t ih =>
    exact ih (fun b a ha => hf b a (List.mem_cons_of_mem _ ha)) _
      (hf b x (List.mem_cons_self _ _) hb)

theorem migrateLegacyCaches_preserves (parseMeta : String → Option MiniSearchMeta)
    (s : BrowserState) (k v : String)
    (h : cacheMatch s CACHE_NAME k = some v) :
    cacheMatch (migrateLegacyCaches parseMeta s) CACHE_NAME k = some v := by
  simp only [migrateLegacyCaches]
  apply @foldl_preserves String BrowserState
    (fun t => cacheMatch t CACHE_NAME k = some v)
  · intro b a ha hb
    by_cases hmem : a ∈ cachesKeys s
    · rw [if_pos hmem]
      have hne : a ≠ CACHE_NAME := by
        simp only [LEGACY_CACHE_NAMES, List.mem_cons, List.not_mem_nil, or_false] at ha
        rcases ha with rfl | rfl
        · decide
        · decide
      rw [cacheMatch_cachesDelete_other (migrateCacheEntries parseMeta b a CACHE_NAME)
        a CACHE_NAME k hne.symm]
      exact migrateCacheEntries_preserves parseMeta b a k v hb
    · rw [if_neg hmem]
      exact hb
  · apply cacheMatch_cachesOpen_of_some
    apply @foldl_preserves String BrowserState
      (fun t => cacheMatch t CACHE_NAME k = some v)
    · intro b a ha hb
      by_cases hcond : (a.startsWith "chatgpt-search-cache-v" && a != CACHE_NAME) = true
      · rw [if_pos hcond]
        rw [Bool.and_eq_true, bne_iff_ne] at hcond
        rw [cacheMatch_cachesDelete_other b a CACHE_NAME k hcond.2.symm]
        exact hb
      · rw [if_neg hcond]
        exact hb
    · exact h

/-- C8: reconciliation is idempotent, and no run of the migration deletes or
overwrites an entry already present in the current cache namespace. -/
theorem migration_idempotent_and_preserves_current
    (parseMeta : String → Option MiniSearchMeta) :
    (∀ s, ensureStorageUpToDate parseMeta (ensureStorageUpToDate parseMeta s) =
      ensureStorageUpToDate parseMeta s) ∧
    (∀ s key v, cacheMatch s CACHE_NAME key = some v →
      cacheMatch (ensureStorageUpToDate parseMeta s) CACHE_NAME key = some v) := by
  constructor
  · intro s
    by_cases h : s.schemaMarker = some STORAGE_SCHEMA_VERSION
    · simp [ensureStorageUpToDate, h]
    · simp [ensureStorageUpToDate, h]
  · intro s key v h
    by_cases hm : s.schemaMarker = some STORAGE_SCHEMA_VERSION
    · simpa [ensureStorageUpToDate, hm] using h
    · simp only [ensureStorageUpToDate, if_neg hm]
      exact migrateLegacyCaches_preserves parseMeta s key v h

/-- A concrete store whose current namespace already holds the json entry. -/
def demoStore : BrowserState :=
  { schemaMarker := none,
    caches := [(CACHE_NAME, fun k => if k = "json" then some "records" else none)] }

/-- Witness for C8 at the concrete store: the json entry of the current
namespace survives a migration run. -/
theorem migration_idempotent_and_preserves_current_witness :
    cacheMatch demoStore CACHE_NAME "json" = some "records" ∧
    cacheMatch (ensureStorageUpToDate (fun _ => none) demoStore) CACHE_NAME "json" =
      some "records" :=
  ⟨rfl, (migration_idempotent_and_preserves_current (fun _ => none)).2 demoStore "json"
    "records" rfl⟩

theorem appRun_never_publishes_cancelled (s : AppIndexState) (es : List AppEvent) (g : Nat)
    (hc : s.cancelled g = true) (hl : ∀ i, s.live ≠ some (g, i)) :
    (appRun s es).cancelled g = true ∧ ∀ i, (appRun s es).live ≠ some (g, i) := by
  induction es generalizing s with
  | nil => exact ⟨hc, hl⟩
  | cons e t ih =>
    apply ih
    · cases e with
      | newConversations =>
        show (if g = s.latest then true else s.cancelled g) = true
        split
        · rfl
        · exact hc
      | finishBuild gen idx =>
        show (if s.cancelled gen = true then s
          else { s with live := some (gen, idx) }).cancelled g = true
        split
        · exact hc
        · exact hc
    · cases e with
      | newConversations => exact hl
      | finishBuild gen idx =>
        intro i
        show (if s.cancelled gen = true then s
          else { s with live := some (gen, idx) }).live ≠ some (g, i)
        split
        · exact hl i
        · rename_i hnc
          show some (gen, idx) ≠ some (g, i)
          intro he
          have hp : (gen, idx) = (g, i) := Option.some.inj he
          have hg : gen = g := congrArg Prod.fst hp
          exact hnc (by rw [hg]; exact hc)

/-- C9: when the record set changes before an index build for the previous
record set has completed and published, the cancelled flag set by the
effect cleanup keeps the superseded result from ever being installed as
the live index, whatever happens afterwards. -/
theorem superseded_build_never_published (s : AppIndexState) (es : List AppEvent) (idx : Nat)
    (hlive : ∀ i, s.live ≠ some (s.latest, i)) :
    (appRun (appStep s .newConversations) es).live ≠ some (s.latest, idx) := by
  have hc : (appStep s .newConversations).cancelled s.latest = true := by
    show (if s.latest = s.latest then true else s.cancelled s.latest) = true
    rw [if_pos rfl]
  have hl : ∀ i, (appStep s .newConversations).live ≠ some (s.latest, i) := hlive
  exact (appRun_never_publishes_cancelled _ es s.latest hc hl).2 idx

/-- The effect state before any upload: generation zero, nothing cancelled,
no live index. -/
def initialAppState : AppIndexState :=
  { latest := 0, cancelled := fun _ => false, live := none }

/-- Witness for C9: from the initial state, an upload followed by the
delayed completion of the generation-zero build leaves that build
unpublished. -/
theorem superseded_build_never_published_witness :
    (∀ i, initialAppState.live ≠ some (initialAppState.latest, i)) ∧
    (appRun (appStep initialAppState .newConversations) [.finishBuild 0 7]).live ≠
      some (initialAppState.latest, 7) :=
  ⟨fun _ h => Option.noConfusion h,
    superseded_build_never_published initialAppState [.finishBuild 0 7] 7
      (fun _ h => Option.noConfusion h)⟩

end ChatGPTSearch
